import Mathlib

/-!
Shallow embedding of the backend of the `gardena` service
(`src/backend/server.py`): a session-authenticated multi-user post
service backed by two document stores (`db.users`, `db.sessions`,
`db.posts`).  Stores are embedded as Lean lists of records; Mongo
`find_one` is `List.find?` (first match), `delete_one` removes the
first match, `delete_many` filters, `update_one` with `$set` rewrites
the first match.  Timestamps (ISO strings compared as datetimes in the
source) are embedded as `Nat`.  Sources of nondeterminism in the code
(uuid4 tokens and ids, bcrypt salts, the current time) are passed as
explicit parameters.
-/

namespace Gardena

/-- `SESSION_EXPIRY_HOURS = 24` from the source. -/
def SESSION_EXPIRY_HOURS : Nat := 24

/-- A bcrypt hash value: the generated salt together with the one-way
digest.  The digest is abstracted as the plaintext itself; this is
faithful for everything the code does with hashes, because the code
only ever builds hashes with `hash_password` and compares them with
`verify_password`, which re-hashes with the embedded salt. -/
structure Hash where
  salt : Nat
  digest : String
deriving DecidableEq, Repr

/-- `hash_password(password)`: `bcrypt.hashpw(password, gensalt())`,
with the fresh salt made explicit. -/
def hash_password (salt : Nat) (password : String) : Hash :=
  ⟨salt, password⟩

/-- `verify_password(password, hashed)`: `bcrypt.checkpw`, which
re-hashes the plaintext with the salt embedded in `hashed` and
compares the result with `hashed`. -/
def verify_password (password : String) (hashed : Hash) : Bool :=
  hash_password hashed.salt password == hashed

/-- A document of the `users` collection. -/
structure UserRec where
  id : String
  username : String
  password : Hash
  is_admin : Bool
  created_at : Nat
deriving DecidableEq, Repr

/-- A document of the `sessions` collection. -/
structure SessionRec where
  session_id : String
  user_id : String
  created_at : Nat
  expires_at : Nat
deriving DecidableEq, Repr

/-- A document of the `posts` collection. -/
structure PostRec where
  id : String
  author_id : String
  author_username : String
  content : String
  created_at : Nat
deriving DecidableEq, Repr

/-- The three Mongo collections the backend uses. -/
structure DB where
  users : List UserRec
  sessions : List SessionRec
  posts : List PostRec
deriving DecidableEq, Repr

/-- The empty database. -/
def DB.empty : DB := ⟨[], [], []⟩

/-- A FastAPI `HTTPException(status_code, detail)`. -/
structure HTTPException where
  status_code : Nat
  detail : String
deriving DecidableEq, Repr

/-- A user document under the projection `{"_id": 0, "password": 0}`:
the public identity (id, username, admin flag, creation time). -/
structure PubUser where
  id : String
  username : String
  is_admin : Bool
  created_at : Nat
deriving DecidableEq, Repr

/-- Apply the `{"_id": 0, "password": 0}` projection to a user record. -/
def projectUser (u : UserRec) : PubUser :=
  ⟨u.id, u.username, u.is_admin, u.created_at⟩

/-- The body returned by a successful login: id, username, admin flag
only. -/
structure LoginResult where
  id : String
  username : String
  is_admin : Bool
deriving DecidableEq, Repr

/-- Mongo `delete_one`: remove the first matching document, if any. -/
def deleteOne (p : α → Bool) : List α → List α
  | [] => []
  | x :: xs => if p x then xs else x :: deleteOne p xs

/-- Mongo `update_one` with `$set`: rewrite the first matching
document, if any. -/
def updateFirst (p : α → Bool) (f : α → α) : List α → List α
  | [] => []
  | x :: xs => if p x then f x :: xs else x :: updateFirst p f xs

/-- `get_user_from_session(session_id)`: resolve a session cookie to
the public identity of the owning user.  A falsy cookie (absent or
empty string) resolves to nothing.  An expired session
(`expires_at < now`) is deleted as a side effect.  Otherwise the
owning user is re-fetched with the password projected away. -/
def get_user_from_session (session_id : Option String) (now : Nat) (db : DB) :
    Option PubUser × DB :=
  match session_id with
  | none => (none, db)
  | some sid =>
    if sid = "" then (none, db)
    else
      match db.sessions.find? (fun s => s.session_id == sid) with
      | none => (none, db)
      | some s =>
        if s.expires_at < now then
          (none, { db with sessions := deleteOne (fun t => t.session_id == sid) db.sessions })
        else
          ((db.users.find? (fun u => u.id == s.user_id)).map projectUser, db)

/-- `create_default_admin()`: seed the fixed `admin`/`admin` account
with the admin flag set, only when no user named `admin` exists. -/
def create_default_admin (newId : String) (salt : Nat) (now : Nat) (db : DB) : DB :=
  match db.users.find? (fun u => u.username == "admin") with
  | some _ => db
  | none =>
    { db with users := db.users ++ [⟨newId, "admin", hash_password salt "admin", true, now⟩] }

/-- `POST /api/auth/login`: look the user up by username, verify the
password, and on success mint a session expiring 24 hours from now and
return the public triple (id, username, is_admin).  Both failure
causes raise the same `HTTPException(401, "Credenziali non valide")`. -/
def login (username password : String) (newToken : String) (now : Nat) (db : DB) :
    Except HTTPException LoginResult × DB :=
  match db.users.find? (fun u => u.username == username) with
  | none => (.error ⟨401, "Credenziali non valide"⟩, db)
  | some user =>
    if verify_password password user.password then
      let session : SessionRec := ⟨newToken, user.id, now, now + SESSION_EXPIRY_HOURS * 3600⟩
      (.ok ⟨user.id, user.username, user.is_admin⟩,
       { db with sessions := db.sessions ++ [session] })
    else
      (.error ⟨401, "Credenziali non valide"⟩, db)

/-- `POST /api/auth/logout`: delete the session for a truthy cookie
and always answer with the same success message. -/
def logout (session_id : Option String) (db : DB) : String × DB :=
  match session_id with
  | none => ("Logout effettuato con successo", db)
  | some sid =>
    if sid = "" then ("Logout effettuato con successo", db)
    else ("Logout effettuato con successo",
          { db with sessions := deleteOne (fun s => s.session_id == sid) db.sessions })

/-- `GET /api/auth/me`: the resolved identity, or 401. -/
def get_current_user (session_id : Option String) (now : Nat) (db : DB) :
    Except HTTPException PubUser × DB :=
  match get_user_from_session session_id now db with
  | (none, db1) => (.error ⟨401, "Non autenticato"⟩, db1)
  | (some u, db1) => (.ok u, db1)

/-- `GET /api/users` (admin only): every user under the password-free
projection.  The guard `if not user or not user.get('is_admin')`
raises the same 403 for an unresolved identity and for a non-admin. -/
def get_users (session_id : Option String) (now : Nat) (db : DB) :
    Except HTTPException (List PubUser) × DB :=
  match get_user_from_session session_id now db with
  | (none, db1) => (.error ⟨403, "Accesso negato"⟩, db1)
  | (some u, db1) =>
    if u.is_admin then (.ok (db1.users.map projectUser), db1)
    else (.error ⟨403, "Accesso negato"⟩, db1)

/-- `POST /api/users` (admin only): create a user with a hashed
password and `is_admin` hard-wired to `False`; duplicate usernames are
rejected with 400.  The response is the new record with the password
popped. -/
def create_user (username password : String) (session_id : Option String)
    (newId : String) (salt : Nat) (now : Nat) (db : DB) :
    Except HTTPException PubUser × DB :=
  match get_user_from_session session_id now db with
  | (none, db1) => (.error ⟨403, "Accesso negato"⟩, db1)
  | (some u, db1) =>
    if u.is_admin then
      match db1.users.find? (fun v => v.username == username) with
      | some _ => (.error ⟨400, "Nome utente già esistente"⟩, db1)
      | none =>
        let new_user : UserRec := ⟨newId, username, hash_password salt password, false, now⟩
        (.ok (projectUser new_user), { db1 with users := db1.users ++ [new_user] })
    else (.error ⟨403, "Accesso negato"⟩, db1)

/-- `DELETE /api/users/{user_id}` (admin only): refuse to delete the
user named `admin` with a 400, answer 404 when nothing was deleted,
and otherwise cascade: delete the user, then every session it owns and
every post it authored.  (`deleted_count == 0` holds exactly when the
id lookup found nothing, so the 404 branch is keyed on the lookup.) -/
def delete_user (user_id : String) (session_id : Option String) (now : Nat) (db : DB) :
    Except HTTPException String × DB :=
  match get_user_from_session session_id now db with
  | (none, db1) => (.error ⟨403, "Accesso negato"⟩, db1)
  | (some u, db1) =>
    if u.is_admin then
      match db1.users.find? (fun v => v.id == user_id) with
      | some target =>
        if target.username == "admin" then
          (.error ⟨400, "Impossibile eliminare l\x27utente admin"⟩, db1)
        else
          (.ok "Utente eliminato con successo",
           { db1 with
             users := deleteOne (fun v => v.id == user_id) db1.users,
             sessions := db1.sessions.filter (fun s => !(s.user_id == user_id)),
             posts := db1.posts.filter (fun p => !(p.author_id == user_id)) })
      | none => (.error ⟨404, "Utente non trovato"⟩, db1)
    else (.error ⟨403, "Accesso negato"⟩, db1)

/-- `PUT /api/users/{user_id}/password` (admin only): set the stored
hash of the first user with that id to the hash of the new plaintext,
404 when no user matched, and delete every session owned by that user.
(The source runs `update_one` before reading `matched_count`; an
unmatched `update_one` is a no-op, so testing the match first is
equivalent.) -/
def update_user_password (user_id new_password : String) (session_id : Option String)
    (salt : Nat) (now : Nat) (db : DB) :
    Except HTTPException String × DB :=
  match get_user_from_session session_id now db with
  | (none, db1) => (.error ⟨403, "Accesso negato"⟩, db1)
  | (some u, db1) =>
    if u.is_admin then
      if db1.users.any (fun v => v.id == user_id) then
        (.ok "Password aggiornata con successo",
         { db1 with
           users := updateFirst (fun v => v.id == user_id)
             (fun v => { v with password := hash_password salt new_password }) db1.users,
           sessions := db1.sessions.filter (fun s => !(s.user_id == user_id)) })
      else (.error ⟨404, "Utente non trovato"⟩, db1)
    else (.error ⟨403, "Accesso negato"⟩, db1)

/-- Descending insertion by creation time, embedding
`.sort("created_at", -1)`. -/
def insertByCreatedDesc (p : PostRec) : List PostRec → List PostRec
  | [] => [p]
  | q :: qs =>
    if q.created_at ≤ p.created_at then p :: q :: qs
    else q :: insertByCreatedDesc p qs

/-- Sort posts by creation time, newest first. -/
def sortByCreatedDesc (l : List PostRec) : List PostRec :=
  l.foldr insertByCreatedDesc []

/-- `GET /api/posts`: every post, newest first, for any authenticated
caller. -/
def get_posts (session_id : Option String) (now : Nat) (db : DB) :
    Except HTTPException (List PostRec) × DB :=
  match get_user_from_session session_id now db with
  | (none, db1) => (.error ⟨401, "Non autenticato"⟩, db1)
  | (some _, db1) => (.ok (sortByCreatedDesc db1.posts), db1)

/-- `POST /api/posts`: create a post stamped with the resolved
identity of the caller. -/
def create_post (content : String) (session_id : Option String)
    (newId : String) (now : Nat) (db : DB) :
    Except HTTPException PostRec × DB :=
  match get_user_from_session session_id now db with
  | (none, db1) => (.error ⟨401, "Non autenticato"⟩, db1)
  | (some u, db1) =>
    let new_post : PostRec := ⟨newId, u.id, u.username, content, now⟩
    (.ok new_post, { db1 with posts := db1.posts ++ [new_post] })

/-- `DELETE /api/posts/{post_id}`: the author or an admin may delete a
post; others get 403, a missing post 404. -/
def delete_post (post_id : String) (session_id : Option String) (now : Nat) (db : DB) :
    Except HTTPException String × DB :=
  match get_user_from_session session_id now db with
  | (none, db1) => (.error ⟨401, "Non autenticato"⟩, db1)
  | (some u, db1) =>
    match db1.posts.find? (fun p => p.id == post_id) with
    | none => (.error ⟨404, "Post non trovato"⟩, db1)
    | some post =>
      if post.author_id != u.id && !u.is_admin then
        (.error ⟨403, "Accesso negato"⟩, db1)
      else
        (.ok "Post eliminato con successo",
         { db1 with posts := deleteOne (fun p => p.id == post_id) db1.posts })

/-- `GET /api/posts/search`: posts whose content matches the query
regex, newest first.  The external regex engine
(`$regex q, $options i`) is abstracted as the predicate `matchQ`. -/
def search_posts (matchQ : String → Bool) (session_id : Option String)
    (now : Nat) (db : DB) :
    Except HTTPException (List PostRec) × DB :=
  match get_user_from_session session_id now db with
  | (none, db1) => (.error ⟨401, "Non autenticato"⟩, db1)
  | (some _, db1) =>
    (.ok (sortByCreatedDesc (db1.posts.filter (fun p => matchQ p.content))), db1)

/-- `GET /api/posts/user/{user_id}`: the given author\x27s posts,
newest first. -/
def get_user_posts (user_id : String) (session_id : Option String)
    (now : Nat) (db : DB) :
    Except HTTPException (List PostRec) × DB :=
  match get_user_from_session session_id now db with
  | (none, db1) => (.error ⟨401, "Non autenticato"⟩, db1)
  | (some _, db1) =>
    (.ok (sortByCreatedDesc (db1.posts.filter (fun p => p.author_id == user_id))), db1)

/-! ### Helper lemmas -/

theorem mem_of_mem_deleteOne {p : α → Bool} {l : List α} {a : α}
    (h : a ∈ deleteOne p l) : a ∈ l := by
  induction l with
  | nil => simp [deleteOne] at h
  | cons x xs ih =>
    cases hx : p x <;> simp [deleteOne, hx] at h
    · rcases h with h | h
      · exact h ▸ List.mem_cons_self x xs
      · exact List.mem_cons_of_mem _ (ih h)
    · exact List.mem_cons_of_mem _ h

/-- When session resolution succeeds, the store is untouched: the
deletion side effect happens only on the `None` paths. -/
theorem resolve_some_snd_eq {sid : Option String} {now : Nat} {db : DB} {u : PubUser}
    (h : (get_user_from_session sid now db).1 = some u) :
    (get_user_from_session sid now db).2 = db := by
  unfold get_user_from_session at h ⊢
  cases sid with
  | none => simp at h
  | some s =>
    by_cases hs : s = ""
    · simp [hs] at h
    · simp only [hs, if_false] at h ⊢
      cases hfind : db.sessions.find? (fun t => t.session_id == s) with
      | none => simp [hfind]
      | some sess =>
        simp only [hfind] at h ⊢
        by_cases hexp : sess.expires_at < now
        · simp [hexp] at h
        · simp [hexp]

/-! ### C1: lazy expiry of sessions during resolution -/

/-- A store holding one regular user and one live session expiring at
time 100, used to probe session resolution at the expiry boundary. -/
def boundaryDb : DB :=
  { users := [⟨"u1", "bob", hash_password 0 "pw", false, 0⟩],
    sessions := [⟨"t1", "u1", 0, 100⟩],
    posts := [] }

/-- C1 counterexample: at `now = 100` the stored session satisfies
`expires_at <= now`, yet `get_user_from_session` returns the owner
identity and leaves the session store untouched — the code deletes
only when `expires_at < now`, so the claimed behaviour at
`expiry <= now` is wrong on the boundary. -/
theorem C1_expiry_boundary_cex :
    (boundaryDb.sessions.find? (fun s => s.session_id == "t1")).map SessionRec.expires_at
      = some 100 ∧
    (get_user_from_session (some "t1") 100 boundaryDb).1 = some ⟨"u1", "bob", false, 0⟩ ∧
    (get_user_from_session (some "t1") 100 boundaryDb).2 = boundaryDb := by
  decide

/-- C1 (amended): for every stored session found by its token, the
session counts as valid exactly when `now <= expires_at`: if
`expires_at < now`, resolution deletes the session from the store and
returns `None`; otherwise it leaves the store untouched and returns
the public identity of the owning user (none if the owner no longer
exists). -/
theorem C1_lazy_expiry (db : DB) (sid : String) (now : Nat) (s : SessionRec)
    (hsid : ¬ sid = "")
    (hf : db.sessions.find? (fun t => t.session_id == sid) = some s) :
    (s.expires_at < now →
       get_user_from_session (some sid) now db =
         (none, { db with sessions := deleteOne (fun t => t.session_id == sid) db.sessions })) ∧
    (now ≤ s.expires_at →
       get_user_from_session (some sid) now db =
         ((db.users.find? (fun u => u.id == s.user_id)).map projectUser, db)) := by
  constructor
  · intro hlt
    simp [get_user_from_session, hsid, hf, hlt]
  · intro hle
    simp [get_user_from_session, hsid, hf, Nat.not_lt.mpr hle]

/-- Witness for C1: one tick past the boundary the session is deleted
and resolution returns `None`. -/
theorem C1_lazy_expiry_witness :
    get_user_from_session (some "t1") 101 boundaryDb =
      (none, { boundaryDb with sessions := [] }) := by
  have h := (C1_lazy_expiry boundaryDb "t1" 101 ⟨"t1", "u1", 0, 100⟩
    (by decide) (by decide)).1 (by decide)
  simpa [deleteOne] using h

/-! ### C3: the admin guard's denial statuses -/

/-- C3 counterexample: on the admin-only endpoints an unauthenticated
caller is denied with the same `403 Accesso negato` as an
authenticated non-admin — not with a distinct 401. -/
theorem C3_unauthenticated_gets_403_cex :
    (get_user_from_session none 0 boundaryDb).1 = none ∧
    (get_users none 0 boundaryDb).1 = Except.error ⟨403, "Accesso negato"⟩ ∧
    (get_users (some "t1") 0 boundaryDb).1 = Except.error ⟨403, "Accesso negato"⟩ ∧
    (create_user "carol" "pw2" none "u9" 1 0 boundaryDb).1 =
      Except.error ⟨403, "Accesso negato"⟩ :=
  ⟨rfl, rfl, rfl, rfl⟩

/-- C3 (amended): on the admin-only operations, a caller with no
resolved identity and a caller whose resolved identity has a false
admin flag are denied with the very same error, HTTP 403
`Accesso negato`; the two denial causes are not distinguished. -/
theorem C3_admin_guard_uniform_403 (sid : Option String) (now : Nat) (db : DB) :
    ((get_user_from_session sid now db).1 = none →
       (get_users sid now db).1 = Except.error ⟨403, "Accesso negato"⟩ ∧
       ∀ un pw nid salt, (create_user un pw sid nid salt now db).1 =
         Except.error ⟨403, "Accesso negato"⟩) ∧
    (∀ u, (get_user_from_session sid now db).1 = some u → u.is_admin = false →
       (get_users sid now db).1 = Except.error ⟨403, "Accesso negato"⟩ ∧
       ∀ un pw nid salt, (create_user un pw sid nid salt now db).1 =
         Except.error ⟨403, "Accesso negato"⟩) := by
  cases hr : get_user_from_session sid now db with
  | mk o db1 =>
    constructor
    · intro hnone
      have ho : o = none := hnone
      subst ho
      refine ⟨?_, fun un pw nid salt => ?_⟩
      · simp [get_users, hr]
      · simp [create_user, hr]
    · intro u hsome hadm
      have ho : o = some u := hsome
      subst ho
      refine ⟨?_, fun un pw nid salt => ?_⟩
      · simp [get_users, hr, hadm]
      · simp [create_user, hr, hadm]

/-- Witness for C3: the empty store with no cookie is denied 403 on
the user list. -/
theorem C3_admin_guard_uniform_403_witness :
    (get_users none 0 DB.empty).1 = Except.error ⟨403, "Accesso negato"⟩ :=
  ((C3_admin_guard_uniform_403 none 0 DB.empty).1 rfl).1

/-! ### C4: the protected `admin` account -/

/-- A store holding only the seeded admin account with a live session,
used to probe deletion of the `admin` user. -/
def adminDb : DB :=
  { users := [⟨"a1", "admin", hash_password 0 "admin", true, 0⟩],
    sessions := [⟨"t1", "a1", 0, 100⟩],
    posts := [] }

/-- C4 counterexample: an admin caller asking to delete the user named
`admin` is answered with HTTP 400, not with the claimed Forbidden 403
(the record is indeed untouched). -/
theorem C4_admin_delete_status_cex :
    delete_user "a1" (some "t1") 0 adminDb =
      (Except.error ⟨400, "Impossibile eliminare l\x27utente admin"⟩, adminDb) ∧
    (400 : Nat) ≠ 403 :=
  ⟨rfl, by decide⟩

/-- C4 (amended): any delete-user request from an authenticated admin
caller that targets the user whose username is `admin` fails with HTTP
400 `Impossibile eliminare l\x27utente admin` and leaves the store
unchanged.  (A non-admin caller never reaches the target check: it is
already denied 403 by the guard.) -/
theorem C4_admin_delete_rejected_400 (db : DB) (sid : Option String) (now : Nat)
    (uid : String) (c : PubUser) (target : UserRec)
    (hres : (get_user_from_session sid now db).1 = some c)
    (hadm : c.is_admin = true)
    (htgt : db.users.find? (fun v => v.id == uid) = some target)
    (hname : target.username = "admin") :
    delete_user uid sid now db =
      (Except.error ⟨400, "Impossibile eliminare l\x27utente admin"⟩, db) := by
  have hsnd := resolve_some_snd_eq hres
  cases hr : get_user_from_session sid now db with
  | mk o db1 =>
    rw [hr] at hres hsnd
    simp only at hres hsnd
    subst hres
    subst hsnd
    simp [delete_user, hr, hadm, htgt, hname]

/-- Witness for C4: the concrete admin store. -/
theorem C4_admin_delete_rejected_400_witness :
    delete_user "a1" (some "t1") 0 adminDb =
      (Except.error ⟨400, "Impossibile eliminare l\x27utente admin"⟩, adminDb) :=
  C4_admin_delete_rejected_400 adminDb (some "t1") 0 "a1" ⟨"a1", "admin", true, 0⟩
    ⟨"a1", "admin", hash_password 0 "admin", true, 0⟩ (by decide) rfl (by decide) rfl

/-! ### C5: login failures are indistinguishable -/

/-- C5: the unknown-username failure and the wrong-password failure of
`login` produce the identical `HTTPException` (same status, same
message), so the caller cannot tell them apart; and for a user stored
with the hash of a plaintext, login with the exact pair succeeds with
the public triple. -/
theorem C5_login_indistinguishable (db : DB) (username password token : String) (now : Nat) :
    (db.users.find? (fun u => u.username == username) = none →
       login username password token now db =
         (Except.error ⟨401, "Credenziali non valide"⟩, db)) ∧
    (∀ u, db.users.find? (fun v => v.username == username) = some u →
       verify_password password u.password = false →
       login username password token now db =
         (Except.error ⟨401, "Credenziali non valide"⟩, db)) ∧
    (∀ u salt, db.users.find? (fun v => v.username == username) = some u →
       u.password = hash_password salt password →
       (login username password token now db).1 =
         Except.ok ⟨u.id, u.username, u.is_admin⟩) := by
  refine ⟨?_, ?_, ?_⟩
  · intro hf
    simp [login, hf]
  · intro u hf hv
    simp [login, hf, hv]
  · intro u salt hf hp
    have hv : verify_password password u.password = true := by
      simp [hp, verify_password, hash_password]
    simp [login, hf, hv]

/-- Witness for C5: an unknown username fails with the same error an
existing user with the wrong password would get, and the exact pair
succeeds. -/
theorem C5_login_indistinguishable_witness :
    login "nobody" "pw" "t9" 0 boundaryDb =
      (Except.error ⟨401, "Credenziali non valide"⟩, boundaryDb) ∧
    (login "bob" "pw" "t9" 0 boundaryDb).1 = Except.ok ⟨"u1", "bob", false⟩ :=
  ⟨(C5_login_indistinguishable boundaryDb "nobody" "pw" "t9" 0).1 (by decide),
   (C5_login_indistinguishable boundaryDb "bob" "pw" "t9" 0).2.2
     ⟨"u1", "bob", hash_password 0 "pw", false, 0⟩ 0 (by decide) rfl⟩

/-! ### C9: logout is idempotent -/

theorem deleteOne_eq_self_of_find?_none {p : α → Bool} {l : List α}
    (h : l.find? p = none) : deleteOne p l = l := by
  induction l with
  | nil => rfl
  | cons x xs ih =>
    cases hx : p x
    · have hxs : xs.find? p = none := by
        rw [List.find?_cons_of_neg] at h
        · exact h
        · simp [hx]
      simp [deleteOne, hx, ih hxs]
    · rw [List.find?_cons_of_pos _ hx] at h
      exact absurd h (by simp)

/-- Deleting by a key that occurs at most once (keys are `Nodup`)
leaves no further match. -/
theorem find?_deleteOne_key_none {f : α → β} [DecidableEq β] {k : β} {l : List α}
    (hnd : (l.map f).Nodup) :
    (deleteOne (fun x => f x == k) l).find? (fun x => f x == k) = none := by
  induction l with
  | nil => rfl
  | cons x xs ih =>
    rw [List.map_cons, List.nodup_cons] at hnd
    obtain ⟨hx, hxs⟩ := hnd
    cases hfx : (f x == k)
    · simp only [deleteOne, hfx, Bool.false_eq_true, if_false]
      rw [List.find?_cons_of_neg _ (by simp [hfx])]
      exact ih hxs
    · simp only [deleteOne, hfx, if_true]
      apply List.find?_eq_none.mpr
      intro y hy hyk
      apply hx
      have hk : f x = k := by simpa using hfx
      have hyk2 : f y = k := by simpa using hyk
      rw [hk, ← hyk2]
      exact List.mem_map_of_mem f hy

/-- C9: `logout` never fails and is idempotent: any call answers the
same success message, and when session tokens are unique (as minted
tokens are) a second call with the same token leaves the session store
exactly as the first call left it. -/
theorem C9_logout_idempotent (sid : Option String) (db : DB) :
    (logout sid db).1 = "Logout effettuato con successo" ∧
    (logout sid (logout sid db).2).1 = "Logout effettuato con successo" ∧
    ((db.sessions.map SessionRec.session_id).Nodup →
       (logout sid (logout sid db).2).2 = (logout sid db).2) := by
  refine ⟨?_, ?_, ?_⟩
  · cases sid with
    | none => rfl
    | some s => by_cases hs : s = "" <;> simp [logout, hs]
  · cases sid with
    | none => rfl
    | some s => by_cases hs : s = "" <;> simp [logout, hs]
  · intro hnd
    cases sid with
    | none => rfl
    | some s =>
      by_cases hs : s = ""
      · simp [logout, hs]
      · simp only [logout, hs, if_neg, ite_false]
        have : deleteOne (fun t => t.session_id == s)
            (deleteOne (fun t => t.session_id == s) db.sessions) =
            deleteOne (fun t => t.session_id == s) db.sessions :=
          deleteOne_eq_self_of_find?_none
            (find?_deleteOne_key_none (f := SessionRec.session_id) hnd)
        simp [this]

/-- Witness for C9: double logout of the one live token of
`boundaryDb`. -/
theorem C9_logout_idempotent_witness :
    (logout (some "t1") (logout (some "t1") boundaryDb).2).2 =
      (logout (some "t1") boundaryDb).2 :=
  (C9_logout_idempotent (some "t1") boundaryDb).2.2 (by decide)

/-! ### C8: bootstrap of the default admin -/

/-- The number of users named `admin` in the store. -/
def countAdmins (db : DB) : Nat :=
  db.users.countP (fun u => u.username == "admin")

/-- Run `create_default_admin` once for each `(id, salt, time)`
triple, in order. -/
def foldBootstrap (runs : List (String × Nat × Nat)) (db : DB) : DB :=
  runs.foldl (fun d r => create_default_admin r.1 r.2.1 r.2.2 d) db

theorem bootstrap_fixed_of_admin_present (i : String) (s t : Nat) {db : DB}
    (h : 0 < countAdmins db) : create_default_admin i s t db = db := by
  obtain ⟨a, ha, hp⟩ := List.countP_pos_iff.mp h
  cases hf : db.users.find? (fun u => u.username == "admin") with
  | some u => simp [create_default_admin, hf]
  | none =>
    rw [List.find?_eq_none] at hf
    exact absurd hp (hf a ha)

theorem foldBootstrap_fixed {runs : List (String × Nat × Nat)} {db : DB}
    (h : 0 < countAdmins db) : foldBootstrap runs db = db := by
  induction runs with
  | nil => rfl
  | cons r rest ih =>
    rw [foldBootstrap, List.foldl_cons,
      bootstrap_fixed_of_admin_present r.1 r.2.1 r.2.2 h]
    exact ih

/-- C8: when no user named `admin` exists, the bootstrap appends
exactly one — named `admin`, with the hash of the fixed default
password `admin` and the admin flag set — leaving exactly one such
user; when one exists it inserts nothing; hence any positive number of
runs from an admin-free store leaves exactly one `admin` user. -/
theorem C8_bootstrap_idempotent (db : DB) :
    (∀ i s t, db.users.find? (fun u => u.username == "admin") = none →
       create_default_admin i s t db =
         { db with users := db.users ++ [⟨i, "admin", hash_password s "admin", true, t⟩] } ∧
       countAdmins (create_default_admin i s t db) = 1) ∧
    (∀ i s t u, db.users.find? (fun u => u.username == "admin") = some u →
       create_default_admin i s t db = db) ∧
    (db.users.find? (fun u => u.username == "admin") = none →
       ∀ runs : List (String × Nat × Nat), runs ≠ [] →
         countAdmins (foldBootstrap runs db) = 1) := by
  have habs : ∀ i s t, db.users.find? (fun u => u.username == "admin") = none →
      create_default_admin i s t db =
        { db with users := db.users ++ [⟨i, "admin", hash_password s "admin", true, t⟩] } := by
    intro i s t hf
    simp [create_default_admin, hf]
  have hcount : ∀ i s t, db.users.find? (fun u => u.username == "admin") = none →
      countAdmins (create_default_admin i s t db) = 1 := by
    intro i s t hf
    have hz : db.users.countP (fun u => u.username == "admin") = 0 := by
      apply List.countP_eq_zero.mpr
      intro a ha
      exact List.find?_eq_none.mp hf a ha
    rw [habs i s t hf]
    simp [countAdmins, List.countP_append, hz, List.countP_cons]
  refine ⟨fun i s t hf => ⟨habs i s t hf, hcount i s t hf⟩, ?_, ?_⟩
  · intro i s t u hf
    simp [create_default_admin, hf]
  · intro hf runs hne
    cases runs with
    | nil => exact absurd rfl hne
    | cons r rest =>
      rw [foldBootstrap, List.foldl_cons]
      have h1 : countAdmins (create_default_admin r.1 r.2.1 r.2.2 db) = 1 :=
        hcount r.1 r.2.1 r.2.2 hf
      have : foldBootstrap rest (create_default_admin r.1 r.2.1 r.2.2 db) =
          create_default_admin r.1 r.2.1 r.2.2 db :=
        foldBootstrap_fixed (by omega)
      rw [foldBootstrap] at this
      rw [this]
      exact h1

/-- Witness for C8: a single run on the empty store seeds exactly one
`admin` user. -/
theorem C8_bootstrap_idempotent_witness :
    countAdmins (foldBootstrap [("a", 0, 0)] DB.empty) = 1 :=
  (C8_bootstrap_idempotent DB.empty).2.2 rfl [("a", 0, 0)] (by decide)

/-! ### C2: a password change revokes all sessions of the user -/

/-- Resolving a token with no matching session touches nothing and
returns nothing. -/
theorem resolve_of_find?_none {tok : String} {now : Nat} {db : DB}
    (htok : ¬ tok = "")
    (h : db.sessions.find? (fun t => t.session_id == tok) = none) :
    get_user_from_session (some tok) now db = (none, db) := by
  simp [get_user_from_session, htok, h]

/-- After deleting every session of a user, a token that used to
resolve to one of that user\x27s sessions matches nothing (tokens
assumed unique in the store). -/
theorem find?_token_filter_user_none {l : List SessionRec} {tok uid : String}
    {s : SessionRec}
    (hnd : (l.map SessionRec.session_id).Nodup)
    (hf : l.find? (fun t => t.session_id == tok) = some s)
    (hu : s.user_id = uid) :
    (l.filter (fun t => !(t.user_id == uid))).find?
      (fun t => t.session_id == tok) = none := by
  apply List.find?_eq_none.mpr
  intro y hy hyk
  rw [List.mem_filter] at hy
  obtain ⟨hyl, hyu⟩ := hy
  have hs_mem : s ∈ l := List.mem_of_find?_eq_some hf
  have hs_tok : s.session_id = tok := by simpa using List.find?_some hf
  have hy_tok : y.session_id = tok := by simpa using hyk
  have hys : y = s :=
    List.inj_on_of_nodup_map hnd hyl hs_mem (by rw [hy_tok, hs_tok])
  rw [hys, hu] at hyu
  simp at hyu

theorem find?_updateFirst {p : α → Bool} {f : α → α} {l : List α} {a : α}
    (h : l.find? p = some a) (hfa : p (f a) = true) :
    (updateFirst p f l).find? p = some (f a) := by
  induction l with
  | nil => simp [List.find?] at h
  | cons x xs ih =>
    cases hx : p x
    · rw [List.find?_cons_of_neg _ (by simp [hx])] at h
      simp only [updateFirst, hx, Bool.false_eq_true, if_false]
      rw [List.find?_cons_of_neg _ (by simp [hx])]
      exact ih h
    · rw [List.find?_cons_of_pos _ hx] at h
      injection h with h2
      subst h2
      simp only [updateFirst, hx, if_true]
      rw [List.find?_cons_of_pos _ hfa]

/-- C2: a successful password change by an admin caller replaces the
stored hash of the first user with the given id by the hash of the new
plaintext, deletes every session owned by that id, and — when stored
tokens are unique — makes every token previously resolving to a
session of that user resolve to `None`. -/
theorem C2_password_change_revokes_sessions (db : DB) (sid : Option String)
    (now salt : Nat) (uid newPw : String) (c : PubUser)
    (hres : (get_user_from_session sid now db).1 = some c)
    (hadm : c.is_admin = true)
    (hex : db.users.any (fun v => v.id == uid) = true) :
    (update_user_password uid newPw sid salt now db).1 =
      Except.ok "Password aggiornata con successo" ∧
    (update_user_password uid newPw sid salt now db).2.users =
      updateFirst (fun v => v.id == uid)
        (fun v => { v with password := hash_password salt newPw }) db.users ∧
    (∀ w, db.users.find? (fun v => v.id == uid) = some w →
       (update_user_password uid newPw sid salt now db).2.users.find?
           (fun v => v.id == uid) =
         some { w with password := hash_password salt newPw }) ∧
    (∀ s ∈ (update_user_password uid newPw sid salt now db).2.sessions,
       s.user_id ≠ uid) ∧
    ((db.sessions.map SessionRec.session_id).Nodup →
       ∀ tok s now2, ¬ tok = "" →
         db.sessions.find? (fun t => t.session_id == tok) = some s →
         s.user_id = uid →
         get_user_from_session (some tok) now2
             (update_user_password uid newPw sid salt now db).2 =
           (none, (update_user_password uid newPw sid salt now db).2)) := by
  have hsnd := resolve_some_snd_eq hres
  cases hr : get_user_from_session sid now db with
  | mk o db1 =>
    rw [hr] at hres hsnd
    have ho : o = some c := hres
    have hdb : db1 = db := hsnd
    have hr2 : get_user_from_session sid now db = (some c, db) := by
      rw [hr, ho, hdb]
    have hupd : update_user_password uid newPw sid salt now db =
        (Except.ok "Password aggiornata con successo",
         { db with
           users := updateFirst (fun v => v.id == uid)
             (fun v => { v with password := hash_password salt newPw }) db.users,
           sessions := db.sessions.filter (fun s => !(s.user_id == uid)) }) := by
      simp [update_user_password, hr2, hadm, hex]
    rw [hupd]
    refine ⟨rfl, rfl, ?_, ?_, ?_⟩
    · intro w hw
      apply find?_updateFirst hw
      simpa using List.find?_some hw
    · intro s hs
      rw [List.mem_filter] at hs
      simpa using hs.2
    · intro hnd tok s now2 htok hft hsu
      exact resolve_of_find?_none htok (find?_token_filter_user_none hnd hft hsu)

/-- A store with the seeded admin (live session `t1`) and a second
user `bob` (live session `t2`, one post). -/
def twoUserDb : DB :=
  { users := [⟨"a1", "admin", hash_password 0 "admin", true, 0⟩,
              ⟨"u1", "bob", hash_password 1 "pw", false, 0⟩],
    sessions := [⟨"t1", "a1", 0, 100⟩, ⟨"t2", "u1", 0, 100⟩],
    posts := [⟨"p1", "u1", "bob", "ciao", 0⟩] }

/-- Witness for C2: after the admin changes bob\x27s password, bob\x27s
previously live token `t2` no longer resolves. -/
theorem C2_password_change_revokes_sessions_witness :
    get_user_from_session (some "t2") 0
        (update_user_password "u1" "np" (some "t1") 5 0 twoUserDb).2 =
      (none, (update_user_password "u1" "np" (some "t1") 5 0 twoUserDb).2) :=
  (C2_password_change_revokes_sessions twoUserDb (some "t1") 0 5 "u1" "np"
      ⟨"a1", "admin", true, 0⟩ (by decide) rfl (by decide)).2.2.2.2
    (by decide) "t2" ⟨"t2", "u1", 0, 100⟩ 0 (by decide) (by decide) rfl

/-! ### C6: deleting a user cascades -/

/-- The document found by `find?` is gone after `delete_one` with the
same filter, provided some projection of the documents is duplicate
free. -/
theorem not_mem_deleteOne_of_find? {f : α → β} [DecidableEq β] {p : α → Bool}
    {l : List α} {a : α}
    (hnd : (l.map f).Nodup) (h : l.find? p = some a) : a ∉ deleteOne p l := by
  induction l with
  | nil => simp [List.find?] at h
  | cons x xs ih =>
    rw [List.map_cons, List.nodup_cons] at hnd
    obtain ⟨hx, hxs⟩ := hnd
    cases hpx : p x
    · rw [List.find?_cons_of_neg _ (by simp [hpx])] at h
      simp only [deleteOne, hpx, Bool.false_eq_true, if_false]
      intro hmem
      rcases List.mem_cons.mp hmem with hax | hax
      · subst hax
        exact hx (List.mem_map_of_mem f (List.mem_of_find?_eq_some h))
      · exact ih hxs h hax
    · rw [List.find?_cons_of_pos _ hpx] at h
      injection h with h2
      subst h2
      simp only [deleteOne, hpx, if_true]
      intro hmem
      exact hx (List.mem_map_of_mem f hmem)

/-- C6: a successful delete-user removes the user record and cascades:
no session owned by the user and no post authored by the user remains;
with unique tokens every previously issued token of the user resolves
to `None`, and with unique usernames the deleted record is gone and a
later login under its username fails. -/
theorem C6_delete_user_cascades (db : DB) (sid : Option String) (now : Nat)
    (uid : String) (c : PubUser) (target : UserRec)
    (hres : (get_user_from_session sid now db).1 = some c)
    (hadm : c.is_admin = true)
    (htgt : db.users.find? (fun v => v.id == uid) = some target)
    (hname : (target.username == "admin") = false) :
    (delete_user uid sid now db).1 = Except.ok "Utente eliminato con successo" ∧
    (delete_user uid sid now db).2.users =
      deleteOne (fun v => v.id == uid) db.users ∧
    ((db.users.map UserRec.username).Nodup →
       target ∉ (delete_user uid sid now db).2.users) ∧
    (∀ s ∈ (delete_user uid sid now db).2.sessions, s.user_id ≠ uid) ∧
    (∀ p ∈ (delete_user uid sid now db).2.posts, p.author_id ≠ uid) ∧
    ((db.sessions.map SessionRec.session_id).Nodup →
       ∀ tok s now2, ¬ tok = "" →
         db.sessions.find? (fun t => t.session_id == tok) = some s →
         s.user_id = uid →
         get_user_from_session (some tok) now2 (delete_user uid sid now db).2 =
           (none, (delete_user uid sid now db).2)) ∧
    ((db.users.map UserRec.username).Nodup →
       ∀ pw tok2 now2,
         (login target.username pw tok2 now2 (delete_user uid sid now db).2).1 =
           Except.error ⟨401, "Credenziali non valide"⟩) := by
  have hsnd := resolve_some_snd_eq hres
  cases hr : get_user_from_session sid now db with
  | mk o db1 =>
    rw [hr] at hres hsnd
    have ho : o = some c := hres
    have hdb : db1 = db := hsnd
    have hr2 : get_user_from_session sid now db = (some c, db) := by
      rw [hr, ho, hdb]
    have hdel : delete_user uid sid now db =
        (Except.ok "Utente eliminato con successo",
         { db with
           users := deleteOne (fun v => v.id == uid) db.users,
           sessions := db.sessions.filter (fun s => !(s.user_id == uid)),
           posts := db.posts.filter (fun p => !(p.author_id == uid)) }) := by
      simp [delete_user, hr2, hadm, htgt, hname]
    rw [hdel]
    refine ⟨rfl, rfl, ?_, ?_, ?_, ?_, ?_⟩
    · intro hund
      exact not_mem_deleteOne_of_find? hund htgt
    · intro s hs
      rw [List.mem_filter] at hs
      simpa using hs.2
    · intro p hp
      rw [List.mem_filter] at hp
      simpa using hp.2
    · intro hnd tok s now2 htok hft hsu
      exact resolve_of_find?_none htok (find?_token_filter_user_none hnd hft hsu)
    · intro hund pw tok2 now2
      have hnone : (deleteOne (fun v => v.id == uid) db.users).find?
          (fun u => u.username == target.username) = none := by
        apply List.find?_eq_none.mpr
        intro y hy hyk
        have hyl : y ∈ db.users := mem_of_mem_deleteOne hy
        have hy2 : y.username = target.username := by simpa using hyk
        have hys : y = target :=
          List.inj_on_of_nodup_map hund hyl
            (List.mem_of_find?_eq_some htgt) hy2
        exact not_mem_deleteOne_of_find? hund htgt (hys ▸ hy)
      simp [login, hnone]

/-- Witness for C6: after the admin deletes bob, logging in as bob
fails with the login error. -/
theorem C6_delete_user_cascades_witness :
    (login "bob" "pw" "t9" 0 (delete_user "u1" (some "t1") 0 twoUserDb).2).1 =
      Except.error ⟨401, "Credenziali non valide"⟩ :=
  (C6_delete_user_cascades twoUserDb (some "t1") 0 "u1" ⟨"a1", "admin", true, 0⟩
      ⟨"u1", "bob", hash_password 1 "pw", false, 0⟩
      (by decide) rfl (by decide) (by decide)).2.2.2.2.2.2 (by decide) "pw" "t9" 0

/-! ### C7: stored hashes never appear in results -/

/-- Rewrite every stored password hash with `f`, leaving every public
field alone.  Results that are invariant under every such rewrite
cannot carry any information about the stored hashes. -/
def mapPasswords (f : Hash → Hash) (db : DB) : DB :=
  { db with users := db.users.map (fun u => { u with password := f u.password }) }

theorem find?_users_mapPasswords (f : Hash → Hash) (l : List UserRec) (uid : String) :
    ((l.map (fun u => { u with password := f u.password })).find?
        (fun u => u.id == uid)).map projectUser =
      (l.find? (fun u => u.id == uid)).map projectUser := by
  induction l with
  | nil => rfl
  | cons x xs ih =>
    by_cases hx : (x.id == uid) = true
    · simp [List.find?_cons, hx, projectUser]
    · simp only [List.map_cons, List.find?_cons, hx]
      simpa [hx] using ih

/-- The expired-session branch of resolution, as an equation. -/
theorem resolve_eq_expired {db : DB} {s : String} (hs : ¬ s = "") {now : Nat}
    {sess : SessionRec}
    (h : db.sessions.find? (fun t => t.session_id == s) = some sess)
    (hexp : sess.expires_at < now) :
    get_user_from_session (some s) now db =
      (none, { db with sessions := deleteOne (fun t => t.session_id == s) db.sessions }) := by
  simp [get_user_from_session, hs, h, hexp]

/-- The live-session branch of resolution, as an equation. -/
theorem resolve_eq_valid {db : DB} {s : String} (hs : ¬ s = "") {now : Nat}
    {sess : SessionRec}
    (h : db.sessions.find? (fun t => t.session_id == s) = some sess)
    (hexp : ¬ sess.expires_at < now) :
    get_user_from_session (some s) now db =
      ((db.users.find? (fun u => u.id == sess.user_id)).map projectUser, db) := by
  simp [get_user_from_session, hs, h, hexp]

/-- Session resolution commutes with a rewrite of all stored hashes:
its visible result is identical, and the store it leaves is the
rewritten one. -/
theorem resolve_mapPasswords (f : Hash → Hash) (sid : Option String) (now : Nat) (db : DB) :
    get_user_from_session sid now (mapPasswords f db) =
      ((get_user_from_session sid now db).1,
       mapPasswords f (get_user_from_session sid now db).2) := by
  cases sid with
  | none => rfl
  | some s =>
    by_cases hs : s = ""
    · subst hs
      simp [get_user_from_session]
    · have hfindM : (mapPasswords f db).sessions.find? (fun t => t.session_id == s) =
          db.sessions.find? (fun t => t.session_id == s) := rfl
      cases hfind : db.sessions.find? (fun t => t.session_id == s) with
      | none =>
        rw [resolve_of_find?_none hs hfind, resolve_of_find?_none hs (hfindM.trans hfind)]
      | some sess =>
        by_cases hexp : sess.expires_at < now
        · rw [resolve_eq_expired hs hfind hexp,
            resolve_eq_expired hs (hfindM.trans hfind) hexp]
          rfl
        · rw [resolve_eq_valid hs hfind hexp,
            resolve_eq_valid hs (hfindM.trans hfind) hexp]
          exact congrArg (fun x => (x, mapPasswords f db))
            (find?_users_mapPasswords f db.users sess.user_id)

/-- C7: no result carries the stored secret hash.  Rewriting every
stored hash arbitrarily changes neither the identity returned by
session resolution nor the user list returned by the admin listing,
and the successful login response is exactly the public triple
(id, username, admin flag) of the stored user. -/
theorem C7_no_password_exposure (f : Hash → Hash) (db : DB)
    (sid : Option String) (now : Nat) :
    (get_user_from_session sid now (mapPasswords f db)).1 =
      (get_user_from_session sid now db).1 ∧
    (get_users sid now (mapPasswords f db)).1 = (get_users sid now db).1 ∧
    (∀ username password token u,
       db.users.find? (fun v => v.username == username) = some u →
       verify_password password u.password = true →
       (login username password token now db).1 =
         Except.ok ⟨u.id, u.username, u.is_admin⟩) := by
  refine ⟨?_, ?_, ?_⟩
  · rw [resolve_mapPasswords]
  · cases hr : get_user_from_session sid now db with
    | mk o db1 =>
      have hr2 : get_user_from_session sid now (mapPasswords f db) =
          (o, mapPasswords f db1) := by
        rw [resolve_mapPasswords, hr]
      cases o with
      | none => simp [get_users, hr, hr2]
      | some u =>
        by_cases hadm : u.is_admin
        · simp only [get_users, hr, hr2, hadm, if_true]
          have : (mapPasswords f db1).users.map projectUser =
              db1.users.map projectUser := by
            simp only [mapPasswords]
            rw [List.map_map]
            rfl
          rw [this]
        · simp [get_users, hr, hr2, hadm]
  · intro username password token u hf hv
    simp [login, hf, hv]

/-- Witness for C7: rewriting both stored hashes of `twoUserDb` leaves
the admin user listing unchanged, and bob\x27s login response is his
public triple. -/
theorem C7_no_password_exposure_witness :
    (get_users (some "t1") 0
        (mapPasswords (fun _ => hash_password 9 "x") twoUserDb)).1 =
      (get_users (some "t1") 0 twoUserDb).1 ∧
    (login "bob" "pw" "t9" 0 twoUserDb).1 = Except.ok ⟨"u1", "bob", false⟩ :=
  ⟨(C7_no_password_exposure (fun _ => hash_password 9 "x") twoUserDb
      (some "t1") 0).2.1,
   (C7_no_password_exposure (fun h => h) twoUserDb (some "t1") 0).2.2
     "bob" "pw" "t9" ⟨"u1", "bob", hash_password 1 "pw", false, 0⟩
     (by decide) (by decide)⟩

/-! ### C10: only the seeded account ever carries the admin flag -/

/-- Resolution never touches the `users` collection. -/
theorem resolve_users_eq (sid : Option String) (now : Nat) (db : DB) :
    (get_user_from_session sid now db).2.users = db.users := by
  cases sid with
  | none => rfl
  | some s =>
    by_cases hs : s = ""
    · simp [get_user_from_session, hs]
    · cases hfind : db.sessions.find? (fun t => t.session_id == s) with
      | none => rw [resolve_of_find?_none hs hfind]
      | some sess =>
        by_cases hexp : sess.expires_at < now
        · rw [resolve_eq_expired hs hfind hexp]
        · rw [resolve_eq_valid hs hfind hexp]

theorem login_users (u p t : String) (n : Nat) (db : DB) :
    (login u p t n db).2.users = db.users := by
  unfold login
  cases hf : db.users.find? (fun v => v.username == u) with
  | none => rfl
  | some w => by_cases hv : verify_password p w.password <;> simp [hv]

theorem logout_users (sid : Option String) (db : DB) :
    (logout sid db).2.users = db.users := by
  cases sid with
  | none => rfl
  | some s => by_cases hs : s = "" <;> simp [logout, hs]

theorem get_current_user_users (sid : Option String) (n : Nat) (db : DB) :
    (get_current_user sid n db).2.users = db.users := by
  cases hr : get_user_from_session sid n db with
  | mk o db1 =>
    have hu := resolve_users_eq sid n db
    rw [hr] at hu
    cases o with
    | none => simpa [get_current_user, hr] using hu
    | some c => simpa [get_current_user, hr] using hu

theorem get_users_users (sid : Option String) (n : Nat) (db : DB) :
    (get_users sid n db).2.users = db.users := by
  cases hr : get_user_from_session sid n db with
  | mk o db1 =>
    have hu := resolve_users_eq sid n db
    rw [hr] at hu
    cases o with
    | none => simpa [get_users, hr] using hu
    | some c =>
      by_cases hadm : c.is_admin <;> simpa [get_users, hr, hadm] using hu

theorem get_posts_users (sid : Option String) (n : Nat) (db : DB) :
    (get_posts sid n db).2.users = db.users := by
  cases hr : get_user_from_session sid n db with
  | mk o db1 =>
    have hu := resolve_users_eq sid n db
    rw [hr] at hu
    cases o with
    | none => simpa [get_posts, hr] using hu
    | some c => simpa [get_posts, hr] using hu

theorem create_post_users (c : String) (sid : Option String) (i : String)
    (n : Nat) (db : DB) :
    (create_post c sid i n db).2.users = db.users := by
  cases hr : get_user_from_session sid n db with
  | mk o db1 =>
    have hu := resolve_users_eq sid n db
    rw [hr] at hu
    cases o with
    | none => simpa [create_post, hr] using hu
    | some u => simpa [create_post, hr] using hu

theorem delete_post_users (pid : String) (sid : Option String) (n : Nat) (db : DB) :
    (delete_post pid sid n db).2.users = db.users := by
  cases hr : get_user_from_session sid n db with
  | mk o db1 =>
    have hu := resolve_users_eq sid n db
    rw [hr] at hu
    cases o with
    | none => simpa [delete_post, hr] using hu
    | some u =>
      cases hf : db1.posts.find? (fun p => p.id == pid) with
      | none => simpa [delete_post, hr, hf] using hu
      | some post =>
        by_cases hown : (post.author_id != u.id && !u.is_admin) = true <;>
          simpa [delete_post, hr, hf, hown] using hu

theorem search_posts_users (q : String → Bool) (sid : Option String)
    (n : Nat) (db : DB) :
    (search_posts q sid n db).2.users = db.users := by
  cases hr : get_user_from_session sid n db with
  | mk o db1 =>
    have hu := resolve_users_eq sid n db
    rw [hr] at hu
    cases o with
    | none => simpa [search_posts, hr] using hu
    | some u => simpa [search_posts, hr] using hu

theorem get_user_posts_users (uid : String) (sid : Option String)
    (n : Nat) (db : DB) :
    (get_user_posts uid sid n db).2.users = db.users := by
  cases hr : get_user_from_session sid n db with
  | mk o db1 =>
    have hu := resolve_users_eq sid n db
    rw [hr] at hu
    cases o with
    | none => simpa [get_user_posts, hr] using hu
    | some u => simpa [get_user_posts, hr] using hu

/-- Creating a user either changes nothing or appends one record whose
admin flag is false. -/
theorem create_user_users (u p : String) (sid : Option String) (i : String)
    (s n : Nat) (db : DB) :
    (create_user u p sid i s n db).2.users = db.users ∨
    (create_user u p sid i s n db).2.users =
      db.users ++ [⟨i, u, hash_password s p, false, n⟩] := by
  cases hr : get_user_from_session sid n db with
  | mk o db1 =>
    have hu := resolve_users_eq sid n db
    rw [hr] at hu
    cases o with
    | none => left; simpa [create_user, hr] using hu
    | some c =>
      by_cases hadm : c.is_admin
      · cases hex : db1.users.find? (fun v => v.username == u) with
        | some _ => left; simpa [create_user, hr, hadm, hex] using hu
        | none =>
          right
          simp only [create_user, hr, hadm, if_true, hex]
          rw [hu]
      · left; simpa [create_user, hr, hadm] using hu

/-- Deleting a user either changes nothing or removes one record. -/
theorem delete_user_users (uid : String) (sid : Option String) (n : Nat) (db : DB) :
    (delete_user uid sid n db).2.users = db.users ∨
    (delete_user uid sid n db).2.users =
      deleteOne (fun v => v.id == uid) db.users := by
  cases hr : get_user_from_session sid n db with
  | mk o db1 =>
    have hu := resolve_users_eq sid n db
    rw [hr] at hu
    cases o with
    | none => left; simpa [delete_user, hr] using hu
    | some c =>
      by_cases hadm : c.is_admin
      · cases htgt : db1.users.find? (fun v => v.id == uid) with
        | none => left; simpa [delete_user, hr, hadm, htgt] using hu
        | some target =>
          by_cases hname : (target.username == "admin") = true
          · left; simpa [delete_user, hr, hadm, htgt, hname] using hu
          · right
            simp only [delete_user, hr, hadm, if_true, htgt, hname,
              Bool.false_eq_true, if_false]
            rw [hu]
      · left; simpa [delete_user, hr, hadm] using hu

/-- A password update either changes nothing or rewrites the hash of
the first matching record, leaving id, username and admin flag
untouched. -/
theorem update_user_password_users (uid pw : String) (sid : Option String)
    (s n : Nat) (db : DB) :
    (update_user_password uid pw sid s n db).2.users = db.users ∨
    (update_user_password uid pw sid s n db).2.users =
      updateFirst (fun v => v.id == uid)
        (fun v => { v with password := hash_password s pw }) db.users := by
  cases hr : get_user_from_session sid n db with
  | mk o db1 =>
    have hu := resolve_users_eq sid n db
    rw [hr] at hu
    cases o with
    | none => left; simpa [update_user_password, hr] using hu
    | some c =>
      by_cases hadm : c.is_admin
      · by_cases hex : db1.users.any (fun v => v.id == uid) = true
        · right
          simp only [update_user_password, hr, hadm, if_true, hex]
          rw [hu]
        · left; simpa [update_user_password, hr, hadm, hex] using hu
      · left; simpa [update_user_password, hr, hadm] using hu

theorem mem_of_mem_updateFirst {p : α → Bool} {f : α → α} {l : List α} {a : α}
    (h : a ∈ updateFirst p f l) : a ∈ l ∨ ∃ b ∈ l, a = f b := by
  induction l with
  | nil => simp [updateFirst] at h
  | cons x xs ih =>
    cases hx : p x
    · simp only [updateFirst, hx, Bool.false_eq_true, if_false] at h
      rcases List.mem_cons.mp h with h | h
      · left; exact h ▸ List.mem_cons_self x xs
      · rcases ih h with h2 | ⟨b, hb, hab⟩
        · left; exact List.mem_cons_of_mem _ h2
        · right; exact ⟨b, List.mem_cons_of_mem _ hb, hab⟩
    · simp only [updateFirst, hx, if_true] at h
      rcases List.mem_cons.mp h with h | h
      · right; exact ⟨x, List.mem_cons_self x xs, h⟩
      · left; exact List.mem_cons_of_mem _ h

/-- One public HTTP operation of the service, with its
nondeterministic inputs (tokens, ids, salts, clock) made explicit. -/
inductive Op where
  | opLogin (username password newToken : String) (now : Nat)
  | opLogout (sid : Option String)
  | opMe (sid : Option String) (now : Nat)
  | opGetUsers (sid : Option String) (now : Nat)
  | opCreateUser (username password : String) (sid : Option String)
      (newId : String) (salt now : Nat)
  | opDeleteUser (uid : String) (sid : Option String) (now : Nat)
  | opUpdatePassword (uid newPw : String) (sid : Option String) (salt now : Nat)
  | opGetPosts (sid : Option String) (now : Nat)
  | opCreatePost (content : String) (sid : Option String) (newId : String) (now : Nat)
  | opDeletePost (pid : String) (sid : Option String) (now : Nat)
  | opSearchPosts (matchQ : String → Bool) (sid : Option String) (now : Nat)
  | opGetUserPosts (uid : String) (sid : Option String) (now : Nat)

/-- The store an operation leaves behind. -/
def Op.step : Op → DB → DB
  | .opLogin u p t n, db => (login u p t n db).2
  | .opLogout sid, db => (logout sid db).2
  | .opMe sid n, db => (get_current_user sid n db).2
  | .opGetUsers sid n, db => (get_users sid n db).2
  | .opCreateUser u p sid i s n, db => (create_user u p sid i s n db).2
  | .opDeleteUser uid sid n, db => (delete_user uid sid n db).2
  | .opUpdatePassword uid pw sid s n, db => (update_user_password uid pw sid s n db).2
  | .opGetPosts sid n, db => (get_posts sid n db).2
  | .opCreatePost c sid i n, db => (create_post c sid i n db).2
  | .opDeletePost pid sid n, db => (delete_post pid sid n db).2
  | .opSearchPosts q sid n, db => (search_posts q sid n db).2
  | .opGetUserPosts uid sid n, db => (get_user_posts uid sid n db).2

/-- Run a sequence of public operations. -/
def runOps : List Op → DB → DB
  | [], db => db
  | op :: ops, db => runOps ops (op.step db)

/-- Every user record an operation can leave in the store either
keeps the id, username and admin flag of a record that was already
there, or has the admin flag false. -/
theorem step_users_shape (op : Op) (db : DB) :
    ∀ v ∈ (op.step db).users,
      (∃ w ∈ db.users, v.id = w.id ∧ v.username = w.username ∧
        v.is_admin = w.is_admin) ∨ v.is_admin = false := by
  cases op with
  | opLogin u p t n =>
    intro v hv
    rw [Op.step, login_users] at hv
    exact Or.inl ⟨v, hv, rfl, rfl, rfl⟩
  | opLogout sid =>
    intro v hv
    rw [Op.step, logout_users] at hv
    exact Or.inl ⟨v, hv, rfl, rfl, rfl⟩
  | opMe sid n =>
    intro v hv
    rw [Op.step, get_current_user_users] at hv
    exact Or.inl ⟨v, hv, rfl, rfl, rfl⟩
  | opGetUsers sid n =>
    intro v hv
    rw [Op.step, get_users_users] at hv
    exact Or.inl ⟨v, hv, rfl, rfl, rfl⟩
  | opCreateUser u p sid i s n =>
    intro v hv
    rw [Op.step] at hv
    rcases create_user_users u p sid i s n db with he | he
    · rw [he] at hv
      exact Or.inl ⟨v, hv, rfl, rfl, rfl⟩
    · rw [he] at hv
      rcases List.mem_append.mp hv with hv | hv
      · exact Or.inl ⟨v, hv, rfl, rfl, rfl⟩
      · right
        have : v = ⟨i, u, hash_password s p, false, n⟩ := by simpa using hv
        rw [this]
  | opDeleteUser uid sid n =>
    intro v hv
    rw [Op.step] at hv
    rcases delete_user_users uid sid n db with he | he
    · rw [he] at hv
      exact Or.inl ⟨v, hv, rfl, rfl, rfl⟩
    · rw [he] at hv
      exact Or.inl ⟨v, mem_of_mem_deleteOne hv, rfl, rfl, rfl⟩
  | opUpdatePassword uid pw sid s n =>
    intro v hv
    rw [Op.step] at hv
    rcases update_user_password_users uid pw sid s n db with he | he
    · rw [he] at hv
      exact Or.inl ⟨v, hv, rfl, rfl, rfl⟩
    · rw [he] at hv
      rcases mem_of_mem_updateFirst hv with h2 | ⟨b, hb, hab⟩
      · exact Or.inl ⟨v, h2, rfl, rfl, rfl⟩
      · exact Or.inl ⟨b, hb, by rw [hab], by rw [hab], by rw [hab]⟩
  | opGetPosts sid n =>
    intro v hv
    rw [Op.step, get_posts_users] at hv
    exact Or.inl ⟨v, hv, rfl, rfl, rfl⟩
  | opCreatePost c sid i n =>
    intro v hv
    rw [Op.step, create_post_users] at hv
    exact Or.inl ⟨v, hv, rfl, rfl, rfl⟩
  | opDeletePost pid sid n =>
    intro v hv
    rw [Op.step, delete_post_users] at hv
    exact Or.inl ⟨v, hv, rfl, rfl, rfl⟩
  | opSearchPosts q sid n =>
    intro v hv
    rw [Op.step, search_posts_users] at hv
    exact Or.inl ⟨v, hv, rfl, rfl, rfl⟩
  | opGetUserPosts uid sid n =>
    intro v hv
    rw [Op.step, get_user_posts_users] at hv
    exact Or.inl ⟨v, hv, rfl, rfl, rfl⟩

/-- The seed invariant is preserved by every public operation. -/
theorem step_preserves_seed_invariant (i : String) (op : Op) (db : DB)
    (h : ∀ u ∈ db.users, u.is_admin = true → u.id = i ∧ u.username = "admin") :
    ∀ u ∈ (op.step db).users, u.is_admin = true → u.id = i ∧ u.username = "admin" := by
  intro v hv hadm
  rcases step_users_shape op db v hv with ⟨w, hw, hid, hun, hfl⟩ | hfalse
  · have := h w hw (hfl ▸ hadm)
    exact ⟨hid.trans this.1, hun.trans this.2⟩
  · rw [hadm] at hfalse
    exact absurd hfalse (by simp)

theorem runOps_preserves_seed_invariant (i : String) (ops : List Op) (db : DB)
    (h : ∀ u ∈ db.users, u.is_admin = true → u.id = i ∧ u.username = "admin") :
    ∀ u ∈ (runOps ops db).users, u.is_admin = true → u.id = i ∧ u.username = "admin" := by
  induction ops generalizing db with
  | nil => exact h
  | cons op rest ih =>
    exact ih (op.step db) (step_preserves_seed_invariant i op db h)

/-- C10: every user created through the public create-user operation
has the admin flag false, and along any sequence of public operations
from the freshly bootstrapped store the seeded account (its id and the
username `admin`) is the only user whose admin flag is ever true. -/
theorem C10_admin_flag_only_seed (i : String) (s t : Nat) (ops : List Op) :
    (∀ un pw sid nid salt now db r,
       (create_user un pw sid nid salt now db).1 = Except.ok r →
       r.is_admin = false) ∧
    (∀ u ∈ (runOps ops (create_default_admin i s t DB.empty)).users,
       u.is_admin = true → u.id = i ∧ u.username = "admin") := by
  constructor
  · intro un pw sid nid salt now db r hok
    cases hr : get_user_from_session sid now db with
    | mk o db1 =>
      cases o with
      | none => simp [create_user, hr] at hok
      | some c =>
        by_cases hadm : c.is_admin
        · cases hex : db1.users.find? (fun v => v.username == un) with
          | some _ => simp [create_user, hr, hadm, hex] at hok
          | none =>
            simp only [create_user, hr, hadm, if_true, hex] at hok
            have : r = projectUser ⟨nid, un, hash_password salt pw, false, now⟩ := by
              injection hok.symm
            rw [this]
            rfl
        · simp [create_user, hr, hadm] at hok
  · apply runOps_preserves_seed_invariant
    intro u hu hadm
    have : u = ⟨i, "admin", hash_password s "admin", true, t⟩ := by
      simpa [create_default_admin, DB.empty] using hu
    rw [this]
    exact ⟨rfl, rfl⟩

/-- Witness for C10: a user created by the admin of `twoUserDb` is not
an admin, and the admin record surviving a run of operations is the
seeded one. -/
theorem C10_admin_flag_only_seed_witness :
    (⟨"u9", "carol", false, 0⟩ : PubUser).is_admin = false ∧
    ((⟨"a", "admin", hash_password 0 "admin", true, 0⟩ : UserRec).id = "a" ∧
     (⟨"a", "admin", hash_password 0 "admin", true, 0⟩ : UserRec).username = "admin") :=
  ⟨(C10_admin_flag_only_seed "a" 0 0 []).1 "carol" "pw2" (some "t1") "u9" 7 0
      twoUserDb ⟨"u9", "carol", false, 0⟩ rfl,
   (C10_admin_flag_only_seed "a" 0 0 [Op.opLogout none, Op.opGetUsers (some "x") 3]).2
     ⟨"a", "admin", hash_password 0 "admin", true, 0⟩ (by decide) rfl⟩

end Gardena
